import Mathlib

/-!
# Verification of `EncryptedDiceGame.sol` (fhe-dice-game)

Shallow embedding of `src/dice-contracts/contracts/EncryptedDiceGame.sol`.

Modelling decisions, stated once:

* Encrypted values (`euint32`, `euint8`, `ebool`) are modelled by their
  decrypted plaintext values.  The FHEVM ciphertext algebra on `euint32`
  is wrapping 32-bit arithmetic, so `FHE.add` / `FHE.sub` are modelled as
  addition / subtraction modulo 2^32; `FHE.and` is bitwise and; `FHE.eq`
  is boolean equality; `FHE.select` picks between two already-computed
  arms.  `FHE.asEuint32 (uint32 x)` is truncation modulo 2^32.
* `FHE.fromExternal(ciphertext, proof)` with a valid proof yields the
  plaintext the caller encrypted; callers of the model pass that
  plaintext directly (proof failure aborts the transaction and is out of
  scope of the claims).
* Addresses are natural numbers; the zero address is `0`.  The EVM never
  executes a call with `msg.sender = 0`, which some invariant theorems
  take as a hypothesis.
* Solidity storage mappings are total functions with zero-initialised
  default (`zeroGame`, balance `0`, empty list).
* The contract's native-currency holding (`address(this).balance`) is
  the `ethBalance` field; a successful payable call adds `msg.value` to
  it, a revert leaves the state unchanged (EVM transaction atomicity),
  which `exec` models by discarding the error and keeping the pre-state.
* `block.timestamp`, `block.prevrandao` and `keccak256` enter
  `resolveGame` only through the dice derivation; they are grouped in
  `BlockEnv`, with the hash an arbitrary function parameter.
* Solidity `revert CustomErr()` and `require(_, "msg")` are both
  modelled as `Except.error` with a dedicated constructor per distinct
  error; the spec's names map to the source's as follows:
  `NoPaymentSent` = `NoETHSent`, `AlreadyResolved` = `GameAlreadyResolved`,
  `InsufficientTreasury` = the `"Insufficient contract ETH balance"`
  require, `AmountTooLarge` = the `"ROLL amount too large for uint32"`
  require, `InvalidAmount` = the `"Amount must be greater than 0"`
  require.
-/

/-- Modulus 2^32 of the `euint32` ciphertext algebra. -/
def U32MOD : Nat := 4294967296

/-- Modulus 2^8 of the `euint8` ciphertext algebra. -/
def U8MOD : Nat := 256

/-- Largest `uint32` value, `type(uint32).max`. -/
def U32MAX : Nat := 4294967295

/-- Model of `FHE.add` on `euint32`: wrapping 32-bit addition. -/
def fheAdd32 (a b : Nat) : Nat := (a + b) % U32MOD

/-- Model of `FHE.sub` on `euint32`: wrapping 32-bit subtraction
(for `a b < 2^32` this is `(a + 2^32 - b) % 2^32`). -/
def fheSub32 (a b : Nat) : Nat := (a + (U32MOD - b % U32MOD)) % U32MOD

/-- Model of `FHE.and` on `euint32`: bitwise and. -/
def fheAnd32 (a b : Nat) : Nat := Nat.land a b

/-- Model of `FHE.select` on `euint32`: encrypted conditional select.  Both arms
are ordinary strict function arguments: the ciphertext algebra computes
both before selecting. -/
def fheSelect32 (c : Bool) (a b : Nat) : Nat := if c then a else b

/-- Source constant `PAYOUT_MULTIPLIER = 195` (declared 1.95x payout). -/
def PAYOUT_MULTIPLIER : Nat := 195

/-- Source constant `BASIS_POINTS = 100`. -/
def BASIS_POINTS : Nat := 100

/-- Value of `1 ether` in wei. -/
def oneEther : Nat := 1000000000000000000

/-- Source constant `ROLL_TOKEN_RATE = 1000` (1 ETH = 1000 ROLL). -/
def ROLL_TOKEN_RATE : Nat := 1000

/-- Source constant `MAX_MINT = 10000 ether` (intended 10000-ROLL max mint). -/
def MAX_MINT : Nat := 10000 * oneEther

/-- The errors the contract can abort with (custom errors and `require`
messages actually reachable from the modelled entry points). -/
inductive Err where
  | OnlyOwner
  | InvalidDiceCount
  | GameAlreadyResolved
  | MaxMintExceeded
  | NoETHSent
  | OnlyGamePlayer
  | AmountMustBePositive
  | InsufficientContractETH
  | RollAmountTooLarge
  | MustSendETH
  | Unauthorized
deriving Repr, DecidableEq

/-- The `Game` struct.  Encrypted fields hold their decrypted values;
`diceValues` slots are `none` while they still hold the zero-initialised
handle from `new euint32[](diceCount)` and `some v` once `resolveGame`
has written an actual encrypted dice value into them. -/
structure Game where
  player : Nat
  diceCount : Nat
  prediction : Nat
  stakeAmount : Nat
  diceValues : List (Option Nat)
  timestamp : Nat
  isResolved : Bool
deriving Repr, DecidableEq

/-- The zero-initialised `Game` record a Solidity mapping returns for a
missing id. -/
def zeroGame : Game :=
  { player := 0, diceCount := 0, prediction := 0, stakeAmount := 0,
    diceValues := [], timestamp := 0, isResolved := false }

/-- The contract's full storage plus its native-currency holding. -/
@[ext]
structure DiceGameState where
  owner : Nat
  gameCounter : Nat
  playerBalance : Nat → Nat
  games : Nat → Game
  playerGames : Nat → List Nat
  ethBalance : Nat
  publicBalance : Nat → Bool

/-- State right after the constructor ran, deployed by `deployer`. -/
def initState (deployer : Nat) : DiceGameState :=
  { owner := deployer, gameCounter := 0,
    playerBalance := fun _ => 0,
    games := fun _ => zeroGame,
    playerGames := fun _ => [],
    ethBalance := 0,
    publicBalance := fun _ => false }

/-- Block-level inputs of `resolveGame`: `block.timestamp`,
`block.prevrandao`, and the `keccak256 ∘ abi.encodePacked` hash on the
four packed words, kept abstract as a function. -/
structure BlockEnv where
  timestamp : Nat
  prevrandao : Nat
  keccak : Nat → Nat → Nat → Nat → Nat

/-- One pseudo-random dice face:
`uint32(uint256(keccak256(abi.encodePacked(ts, prevrandao, gameId, i))) % 6) + 1`. -/
def diceRoll (env : BlockEnv) (gameId i : Nat) : Nat :=
  env.keccak env.timestamp env.prevrandao gameId i % 6 + 1

/-- The dice faces `resolveGame` generates for a game of `n` dice. -/
def rollsFor (env : BlockEnv) (gameId n : Nat) : List Nat :=
  (List.range n).map (diceRoll env gameId)

/-- The encrypted running sum accumulated in the `resolveGame` loop. -/
def sumRolls (rolls : List Nat) : Nat := rolls.foldl fheAdd32 0

/-- Model of `function mintTokens(uint256 amount) external` (lines 82-93). -/
def mintTokens (st : DiceGameState) (sender amount : Nat) :
    Except Err DiceGameState :=
  if amount > MAX_MINT then .error .MaxMintExceeded
  else
    .ok { st with playerBalance := fun a =>
            if a = sender then fheAdd32 (st.playerBalance sender) (amount % U32MOD)
            else st.playerBalance a }

/-- Model of `function swapETHForROLL() external payable` (lines 99-118);
`value` is `msg.value` in wei. -/
def swapETHForROLL (st : DiceGameState) (sender value : Nat) :
    Except Err DiceGameState :=
  if value = 0 then .error .NoETHSent
  else
    let rollAmount := value * ROLL_TOKEN_RATE / oneEther
    if rollAmount > U32MAX then .error .RollAmountTooLarge
    else
      .ok { st with
            ethBalance := st.ethBalance + value,
            playerBalance := fun a =>
              if a = sender then
                fheAdd32 (st.playerBalance sender) (rollAmount % U32MOD)
              else st.playerBalance a }

/-- Model of `function swapROLLForETH(uint32, externalEuint32, bytes) external`
(lines 124-146).  `encAmount` is the decrypted value of the caller's
external ciphertext; `rollAmount` is the separate plaintext `uint32`
argument (callers can only supply `rollAmount < 2^32`). -/
def swapROLLForETH (st : DiceGameState) (sender rollAmount encAmount : Nat) :
    Except Err DiceGameState :=
  if rollAmount = 0 then .error .AmountMustBePositive
  else
    let ethAmount := rollAmount * oneEther / ROLL_TOKEN_RATE
    if st.ethBalance < ethAmount then .error .InsufficientContractETH
    else
      .ok { st with
            ethBalance := st.ethBalance - ethAmount,
            playerBalance := fun a =>
              if a = sender then
                fheSub32 (st.playerBalance sender) (encAmount % U32MOD)
              else st.playerBalance a }

/-- Model of `function addTreasuryETH() external payable onlyOwner` (lines 150-153). -/
def addTreasuryETH (st : DiceGameState) (sender value : Nat) :
    Except Err DiceGameState :=
  if sender ≠ st.owner then .error .OnlyOwner
  else if value = 0 then .error .MustSendETH
  else .ok { st with ethBalance := st.ethBalance + value }

/-- Model of `function startGame(uint8 diceCount, ...) external validDiceCount(diceCount)`
(lines 167-205).  `pred` and `stake` are the decrypted values of the two
external ciphertexts (`euint8` and `euint32` respectively). -/
def startGame (env : BlockEnv) (st : DiceGameState)
    (sender diceCount pred stake : Nat) : Except Err DiceGameState :=
  if diceCount < 1 ∨ diceCount > 3 then .error .InvalidDiceCount
  else
    let gameId := st.gameCounter
    let game : Game :=
      { player := sender, diceCount := diceCount,
        prediction := pred % U8MOD, stakeAmount := stake % U32MOD,
        diceValues := List.replicate diceCount none,
        timestamp := env.timestamp, isResolved := false }
    .ok { st with
          gameCounter := st.gameCounter + 1,
          games := fun g => if g = gameId then game else st.games g,
          playerBalance := fun a =>
            if a = sender then
              fheSub32 (st.playerBalance sender) (stake % U32MOD)
            else st.playerBalance a,
          playerGames := fun a =>
            if a = sender then st.playerGames sender ++ [gameId]
            else st.playerGames a }

/-- Model of `function resolveGame(uint256 gameId) external` (lines 209-254). -/
def resolveGame (env : BlockEnv) (st : DiceGameState) (sender gameId : Nat) :
    Except Err DiceGameState :=
  let game := st.games gameId
  if game.player ≠ sender then .error .OnlyGamePlayer
  else if game.isResolved then .error .GameAlreadyResolved
  else
    let rolls := rollsFor env gameId game.diceCount
    let sum := sumRolls rolls
    let leastBit := fheAnd32 sum 1
    let isEven : Bool := leastBit == 0
    let predictedEven : Bool := game.prediction == 0
    let won : Bool := isEven == predictedEven
    let doublePayout := fheAdd32 game.stakeAmount game.stakeAmount
    let finalPayout := fheSelect32 won doublePayout 0
    .ok { st with
          playerBalance := fun a =>
            if a = sender then
              fheAdd32 (st.playerBalance sender) finalPayout
            else st.playerBalance a,
          games := fun g =>
            if g = gameId then
              { game with diceValues := rolls.map some, isResolved := true }
            else st.games g }

/-- Model of `function makeBalancePubliclyDecryptable(address player) external`
(lines 316-321). -/
def makeBalancePublic (st : DiceGameState) (sender player : Nat) :
    Except Err DiceGameState :=
  if sender = player ∨ sender = st.owner then
    .ok { st with publicBalance := fun a =>
            if a = player then true else st.publicBalance a }
  else .error .Unauthorized

/-- Model of `function withdrawETH() external onlyOwner` (lines 331-333): transfers
the whole native holding to the owner. -/
def withdrawETH (st : DiceGameState) (sender : Nat) :
    Except Err DiceGameState :=
  if sender ≠ st.owner then .error .OnlyOwner
  else .ok { st with ethBalance := 0 }

/-- Model of `receive() external payable` (line 336): accepts any plain native
transfer from any sender. -/
def receiveEth (st : DiceGameState) (value : Nat) :
    Except Err DiceGameState :=
  .ok { st with ethBalance := st.ethBalance + value }

/-- Model of `fallback() external payable` (line 339). -/
def fallbackEth (st : DiceGameState) (value : Nat) :
    Except Err DiceGameState :=
  .ok { st with ethBalance := st.ethBalance + value }

/-- Every state-mutating entry point of the contract, with its caller and
arguments.  The `view` functions are omitted: Solidity `view` forbids
storage writes and none of them is payable, so they cannot change any
modelled state. -/
inductive Call where
  | mint (sender amount : Nat)
  | buy (sender value : Nat)
  | sell (sender rollAmount encAmount : Nat)
  | fund (sender value : Nat)
  | start (env : BlockEnv) (sender diceCount pred stake : Nat)
  | resolve (env : BlockEnv) (sender gameId : Nat)
  | makePublic (sender player : Nat)
  | withdraw (sender : Nat)
  | recv (sender value : Nat)
  | fb (sender value : Nat)

/-- Caller (`msg.sender`) of a call. -/
def Call.sender : Call → Nat
  | .mint s _ => s
  | .buy s _ => s
  | .sell s _ _ => s
  | .fund s _ => s
  | .start _ s _ _ _ => s
  | .resolve _ s _ => s
  | .makePublic s _ => s
  | .withdraw s => s
  | .recv s _ => s
  | .fb s _ => s

/-- Dispatch a call to the entry point it names. -/
def step (c : Call) (st : DiceGameState) : Except Err DiceGameState :=
  match c with
  | .mint s a => mintTokens st s a
  | .buy s v => swapETHForROLL st s v
  | .sell s r e => swapROLLForETH st s r e
  | .fund s v => addTreasuryETH st s v
  | .start env s d p k => startGame env st s d p k
  | .resolve env s g => resolveGame env st s g
  | .makePublic s p => makeBalancePublic st s p
  | .withdraw s => withdrawETH st s
  | .recv _ v => receiveEth st v
  | .fb _ v => fallbackEth st v

/-- The state after a transaction: on success the new state, on revert
the old one (EVM transactions are all-or-nothing). -/
def exec (c : Call) (st : DiceGameState) : DiceGameState :=
  match step c st with
  | .ok st' => st'
  | .error _ => st

/-- The state a successful `resolveGame` produces (same computation as
the success branch of `resolveGame`, factored out so theorems can name
it). -/
def resolvedState (env : BlockEnv) (st : DiceGameState) (sender gameId : Nat) :
    DiceGameState :=
  let game := st.games gameId
  let rolls := rollsFor env gameId game.diceCount
  let sum := sumRolls rolls
  let leastBit := fheAnd32 sum 1
  let isEven : Bool := leastBit == 0
  let predictedEven : Bool := game.prediction == 0
  let won : Bool := isEven == predictedEven
  let doublePayout := fheAdd32 game.stakeAmount game.stakeAmount
  let finalPayout := fheSelect32 won doublePayout 0
  { st with
    playerBalance := fun a =>
      if a = sender then fheAdd32 (st.playerBalance sender) finalPayout
      else st.playerBalance a,
    games := fun g =>
      if g = gameId then
        { game with diceValues := rolls.map some, isResolved := true }
      else st.games g }

/-- The encrypted win condition `resolveGame` computes for game `gameId`
of `st`: `(sum AND 1) == 0` compared with `prediction == 0`. -/
def wonFor (env : BlockEnv) (st : DiceGameState) (gameId : Nat) : Bool :=
  (fheAnd32 (sumRolls (rollsFor env gameId (st.games gameId).diceCount)) 1 == 0)
    == ((st.games gameId).prediction == 0)

/-- The encrypted payout `resolveGame` credits for game `gameId` of `st`:
`select(won, stake + stake, 0)`. -/
def payoutFor (env : BlockEnv) (st : DiceGameState) (gameId : Nat) : Nat :=
  fheSelect32 (wonFor env st gameId)
    (fheAdd32 (st.games gameId).stakeAmount (st.games gameId).stakeAmount) 0

/-- Overwrite the stored prediction of game `gameId` (used to compare
behaviours of two states differing only in a game's prediction). -/
def setPred (st : DiceGameState) (gameId p : Nat) : DiceGameState :=
  { st with games := fun g =>
      if g = gameId then { st.games gameId with prediction := p }
      else st.games g }

/-- A dice-value slot holding an actual encrypted face in [1,6]. -/
def diceFaceOK : Option Nat → Prop
  | some n => 1 ≤ n ∧ n ≤ 6
  | none => False

instance : DecidablePred diceFaceOK := fun v => by
  cases v <;> simp [diceFaceOK] <;> infer_instance

/-- All dice-value slots of a game still hold the zero-initialised
handle (no dice value has ever been written). -/
def diceUnset (g : Game) : Prop := ∀ v ∈ g.diceValues, v = none

/-- The dice-value sequence is fully populated: exactly `diceCount`
slots, each a written encrypted face in [1,6]. -/
def diceSet (g : Game) : Prop :=
  g.diceValues.length = g.diceCount ∧ ∀ v ∈ g.diceValues, diceFaceOK v

/-- Per-game well-formedness: before resolution no dice value has been
written (and the array already has `diceCount` slots, as allocated by
`startGame`); after resolution the sequence is fully populated. -/
def GameWF (g : Game) : Prop :=
  (g.isResolved = false → diceUnset g ∧ g.diceValues.length = g.diceCount) ∧
  (g.isResolved = true → diceSet g)

/-- Reachable-state invariant: every game record is well formed, and no
record exists at or above the monotone `gameCounter` (ids are handed out
by `gameCounter++`, so slots not yet allocated are zero-initialised). -/
def StateWF (st : DiceGameState) : Prop :=
  (∀ g, GameWF (st.games g)) ∧
  (∀ g, st.gameCounter ≤ g → st.games g = zeroGame)

/-- The calls whose entry points can change the native-currency holding
(`swapETHForROLL`, `swapROLLForETH`, `addTreasuryETH`, `withdrawETH`,
`receive`, `fallback`). -/
def touchesTreasury : Call → Bool
  | .buy _ _ => true
  | .sell _ _ _ => true
  | .fund _ _ => true
  | .withdraw _ => true
  | .recv _ _ => true
  | .fb _ _ => true
  | _ => false

/-- The calls whose entry points write the game map or the counter. -/
def touchesGames : Call → Bool
  | .start _ _ _ _ _ => true
  | .resolve _ _ _ => true
  | _ => false

/-- A concrete block environment for witnesses. -/
def envW : BlockEnv :=
  { timestamp := 11, prevrandao := 22, keccak := fun a b c d => a + b + c + d }

/-- A concrete active (unresolved) one-die game: player 3 staked 100 on
an even prediction. -/
def gameW : Game :=
  { player := 3, diceCount := 1, prediction := 0, stakeAmount := 100,
    diceValues := [none], timestamp := 11, isResolved := false }

/-- A concrete state holding `gameW` as game 0, player 3 already debited
down to 900. -/
def stGame : DiceGameState :=
  { initState 1 with
    gameCounter := 1,
    games := fun g => if g = 0 then gameW else zeroGame,
    playerBalance := fun a => if a = 3 then 900 else 0,
    playerGames := fun a => if a = 3 then [0] else [] }

/-- A concrete funded state for the swap counterexamples: treasury holds
1 ether, player 3 holds 100 ROLL. -/
def stSwap : DiceGameState :=
  { initState 1 with
    ethBalance := oneEther,
    playerBalance := fun a => if a = 3 then 100 else 0 }

/-- A concrete state in which player 3's balance sits at the top of the
32-bit range. -/
def stFull : DiceGameState :=
  { initState 1 with
    playerBalance := fun a => if a = 3 then 4294967295 else 0 }

/-- Unfolding lemma: `resolveGame` is exactly the two guard checks, then the
`resolvedState` success state. -/
theorem resolveGame_eq (env : BlockEnv) (st : DiceGameState) (sender gameId : Nat) :
    resolveGame env st sender gameId =
      if (st.games gameId).player ≠ sender then .error .OnlyGamePlayer
      else if (st.games gameId).isResolved then .error .GameAlreadyResolved
      else .ok (resolvedState env st sender gameId) := rfl

/-- Success of `resolveGame` forces both guards false and pins down the
output state. -/
theorem resolveGame_ok {env : BlockEnv} {st : DiceGameState}
    {sender gameId : Nat} {st' : DiceGameState}
    (h : resolveGame env st sender gameId = .ok st') :
    (st.games gameId).player = sender ∧
    (st.games gameId).isResolved = false ∧
    st' = resolvedState env st sender gameId := by
  rw [resolveGame_eq] at h
  by_cases h1 : (st.games gameId).player ≠ sender
  · rw [if_pos h1] at h; exact absurd h (by simp)
  · rw [if_neg h1] at h
    by_cases h2 : (st.games gameId).isResolved
    · rw [if_pos h2] at h; exact absurd h (by simp)
    · rw [if_neg h2] at h
      refine ⟨by push_neg at h1; exact h1, by simp [h2], ?_⟩
      injection h with h
      exact h.symm

/-- The balance a successful resolve leaves the caller with. -/
theorem resolvedState_balance (env : BlockEnv) (st : DiceGameState)
    (sender gameId : Nat) :
    (resolvedState env st sender gameId).playerBalance sender =
      fheAdd32 (st.playerBalance sender) (payoutFor env st gameId) := by
  simp [resolvedState, payoutFor, wonFor]

/-- Every generated dice face lies in [1,6]. -/
theorem rollsFor_mem {env : BlockEnv} {gameId n r : Nat}
    (h : r ∈ rollsFor env gameId n) : 1 ≤ r ∧ r ≤ 6 := by
  simp only [rollsFor, List.mem_map, List.mem_range] at h
  obtain ⟨i, _, hi⟩ := h
  unfold diceRoll at hi
  omega

/-- Exactly `n` dice faces are generated for an `n`-dice game. -/
theorem rollsFor_length (env : BlockEnv) (gameId n : Nat) :
    (rollsFor env gameId n).length = n := by
  simp [rollsFor]

/-- C9: `startGame` with `diceCount ∉ {1,2,3}` fails with
`InvalidDiceCount` and changes nothing: no game record, no counter
increment, no stake debit, no game-list append — the post-transaction
state is the pre-state. -/
theorem C9_startGame_invalid_diceCount (env : BlockEnv) (st : DiceGameState)
    (sender diceCount pred stake : Nat)
    (h : diceCount = 0 ∨ diceCount > 3) :
    startGame env st sender diceCount pred stake = .error .InvalidDiceCount ∧
    exec (.start env sender diceCount pred stake) st = st := by
  have hc : diceCount < 1 ∨ diceCount > 3 := by omega
  have h1 : startGame env st sender diceCount pred stake = .error .InvalidDiceCount := by
    unfold startGame; rw [if_pos hc]
  exact ⟨h1, by simp only [exec, step, h1]⟩

/-- Witness for C9 at `diceCount = 5`. -/
theorem C9_startGame_invalid_diceCount_witness :
    startGame envW (initState 1) 3 5 0 10 = .error .InvalidDiceCount ∧
    exec (.start envW 3 5 0 10) (initState 1) = initState 1 :=
  C9_startGame_invalid_diceCount envW (initState 1) 3 5 0 10 (by decide)

/-- C4: `mintTokens(amount)` fails with `MaxMintExceeded` iff
`amount > MAX_MINT`, where `MAX_MINT = 10000 ether = 10^22` although
`amount` is denominated in whole ROLL units; hence every
`10000 < amount ≤ 10^22` mints successfully (the cap never binds at the
intended 10000-ROLL limit) and the credited ciphertext is
`uint32(amount)`, i.e. `amount` truncated modulo 2^32. -/
theorem C4_mint_cap (st : DiceGameState) (sender amount : Nat) :
    (mintTokens st sender amount = .error .MaxMintExceeded ↔ MAX_MINT < amount) ∧
    MAX_MINT = 10000000000000000000000 ∧
    (amount ≤ MAX_MINT →
      mintTokens st sender amount =
        .ok { st with playerBalance := fun a =>
                if a = sender then
                  (st.playerBalance sender + amount % U32MOD) % U32MOD
                else st.playerBalance a }) := by
  refine ⟨⟨fun h => ?_, fun h => ?_⟩, by norm_num [MAX_MINT, oneEther], fun hle => ?_⟩
  · by_cases hc : MAX_MINT < amount
    · exact hc
    · unfold mintTokens at h
      rw [if_neg hc] at h
      exact absurd h (by simp)
  · unfold mintTokens; rw [if_pos h]
  · unfold mintTokens
    rw [if_neg (by omega)]
    rfl

/-- Witness for C4 at the largest accepted amount, `amount = 10^22`
(far above the intended 10000-ROLL cap). -/
theorem C4_mint_cap_witness :
    mintTokens (initState 1) 3 10000000000000000000000 =
      .ok { initState 1 with playerBalance := fun a =>
              if a = 3 then
                ((initState 1).playerBalance 3 +
                  10000000000000000000000 % U32MOD) % U32MOD
              else (initState 1).playerBalance a } :=
  (C4_mint_cap (initState 1) 3 10000000000000000000000).2.2 (by decide)

/-- C6 counterexample: with player 3's balance at `2^32 - 1`, a buy of
1 ether (token amount 1000) leaves the decrypted balance at 999 — the
euint32 credit wrapped, so the balance did not increase by the claimed
`floor(n * 1000 / ONE_UNIT) = 1000`. -/
theorem C6_buy_overflow_cex :
    (swapETHForROLL stFull 3 oneEther).map (fun s => s.playerBalance 3) =
      .ok 999 ∧
    stFull.playerBalance 3 = 4294967295 ∧
    (999 : Nat) ≠ 4294967295 + 1000 := by
  exact ⟨rfl, by decide, by decide⟩

/-- C6 (amended): `buy(0)` fails with `NoETHSent` (the source's name for
the spec's `NoPaymentSent`); a nonzero buy whose token amount
`floor(n * 1000 / ONE_UNIT)` exceeds `uint32.max` fails with the
`"ROLL amount too large for uint32"` require (the spec's
`AmountTooLarge`); otherwise the treasury grows by `n` and the caller's
decrypted balance becomes `(old + tokenAmount) mod 2^32` — an increase
of exactly `tokenAmount` whenever that sum stays below 2^32. -/
theorem C6_buy_amended (st : DiceGameState) (sender value : Nat) :
    (value = 0 → swapETHForROLL st sender value = .error .NoETHSent) ∧
    (value ≠ 0 → U32MAX < value * ROLL_TOKEN_RATE / oneEther →
      swapETHForROLL st sender value = .error .RollAmountTooLarge) ∧
    (value ≠ 0 → value * ROLL_TOKEN_RATE / oneEther ≤ U32MAX →
      (swapETHForROLL st sender value).map
          (fun s => (s.playerBalance sender, s.ethBalance)) =
        .ok ((st.playerBalance sender + value * ROLL_TOKEN_RATE / oneEther) % U32MOD,
             st.ethBalance + value)) ∧
    (value ≠ 0 → value * ROLL_TOKEN_RATE / oneEther ≤ U32MAX →
      st.playerBalance sender + value * ROLL_TOKEN_RATE / oneEther < U32MOD →
      (exec (.buy sender value) st).playerBalance sender =
        st.playerBalance sender + value * ROLL_TOKEN_RATE / oneEther) := by
  refine ⟨fun h0 => ?_, fun h0 hbig => ?_, fun h0 hfit => ?_, fun h0 hfit hsum => ?_⟩
  · unfold swapETHForROLL; rw [if_pos h0]
  · unfold swapETHForROLL
    rw [if_neg h0]
    simp only
    rw [if_pos hbig]
  · have hfit2 : value * ROLL_TOKEN_RATE / oneEther ≤ 4294967295 := hfit
    unfold swapETHForROLL
    rw [if_neg h0]
    simp only
    rw [if_neg (by omega)]
    simp only [Except.map]
    simp [fheAdd32, U32MOD]
  · have hfit2 : value * ROLL_TOKEN_RATE / oneEther ≤ 4294967295 := hfit
    have hsum2 : st.playerBalance sender + value * ROLL_TOKEN_RATE / oneEther
        < 4294967296 := hsum
    have hok : swapETHForROLL st sender value =
        .ok { st with
              ethBalance := st.ethBalance + value,
              playerBalance := fun a =>
                if a = sender then
                  fheAdd32 (st.playerBalance sender)
                    (value * ROLL_TOKEN_RATE / oneEther % U32MOD)
                else st.playerBalance a } := by
      unfold swapETHForROLL
      rw [if_neg h0]
      simp only
      rw [if_neg (by omega)]
    simp only [exec, step, hok]
    simp [fheAdd32, U32MOD]
    omega

/-- Witness for C6 (amended) at a 1-ether buy from a fresh account. -/
theorem C6_buy_amended_witness :
    (swapETHForROLL (initState 1) 3 oneEther).map
        (fun s => (s.playerBalance 3, s.ethBalance)) =
      .ok (((initState 1).playerBalance 3 + oneEther * ROLL_TOKEN_RATE / oneEther) % U32MOD,
           (initState 1).ethBalance + oneEther) :=
  (C6_buy_amended (initState 1) 3 oneEther).2.2.1 (by decide) (by decide)

/-- C2 counterexample: player 3 holds 100 tokens; `sell` is called with
claimed plaintext amount 1 but a ciphertext that decrypts to 5.  The
treasury math uses the claimed 1, yet the balance is debited by the
ciphertext's 5: the decrypted balance lands at 95, not the claimed
`100 - 1 = 99` — the balance does not decrease by `amt`. -/
theorem C2_sell_mismatch_cex :
    (swapROLLForETH stSwap 3 1 5).map (fun s => s.playerBalance 3) = .ok 95 ∧
    stSwap.playerBalance 3 = 100 ∧
    (95 : Nat) ≠ 100 - 1 := ⟨rfl, by decide, by decide⟩

/-- C2 (amended): for `amt > 0` (a `uint32`), `sell(amt, ct)` fails with
the `"Insufficient contract ETH balance"` require (the spec's
`InsufficientTreasury`) exactly when `amt * ONE_UNIT / 1000` exceeds the
treasury; otherwise the treasury decreases by exactly that amount, while
the caller's decrypted balance decreases (mod 2^32) by the decrypted
value of the supplied ciphertext — which equals `amt` only when the
ciphertext actually encrypts `amt`, an unchecked trust gap. -/
theorem C2_sell_amended (st : DiceGameState) (sender amt enc : Nat)
    (hpos : amt ≠ 0) (hu32 : amt < 4294967296) :
    (swapROLLForETH st sender amt enc = .error .InsufficientContractETH ↔
      st.ethBalance < amt * oneEther / ROLL_TOKEN_RATE) ∧
    (amt * oneEther / ROLL_TOKEN_RATE ≤ st.ethBalance →
      (swapROLLForETH st sender amt enc).map
          (fun s => (s.ethBalance, s.playerBalance sender)) =
        .ok (st.ethBalance - amt * oneEther / ROLL_TOKEN_RATE,
             fheSub32 (st.playerBalance sender) (enc % U32MOD))) := by
  constructor
  · constructor
    · intro h
      unfold swapROLLForETH at h
      rw [if_neg hpos] at h
      simp only at h
      by_cases hc : st.ethBalance < amt * oneEther / ROLL_TOKEN_RATE
      · exact hc
      · rw [if_neg hc] at h
        exact absurd h (by simp)
    · intro h
      unfold swapROLLForETH
      rw [if_neg hpos]
      simp only
      rw [if_pos h]
  · intro h
    unfold swapROLLForETH
    rw [if_neg hpos]
    simp only
    rw [if_neg (by omega)]
    simp only [Except.map]
    simp

/-- Witness for C2 (amended): an honest sell of 1 token whose ciphertext
also decrypts to 1, against a 1-ether treasury. -/
theorem C2_sell_amended_witness :
    (swapROLLForETH stSwap 3 1 1).map
        (fun s => (s.ethBalance, s.playerBalance 3)) =
      .ok (stSwap.ethBalance - 1 * oneEther / ROLL_TOKEN_RATE,
           fheSub32 (stSwap.playerBalance 3) (1 % U32MOD)) :=
  (C2_sell_amended stSwap 3 1 1 (by decide) (by decide)).2 (by decide)

/-- C7 counterexample: from a fresh account, `mint(10^22)` twice
succeeds both times (each call is at the `MAX_MINT` boundary) and leaves
the decrypted balance at `(2 * (10^22 mod 2^32)) mod 2^32 = 1686110208`,
whereas the single call `mint(2 * 10^22)` reverts with
`MaxMintExceeded`, leaving the balance at 0 — the two runs differ. -/
theorem C7_mint_additivity_cex :
    (exec (.mint 3 10000000000000000000000)
      (exec (.mint 3 10000000000000000000000) (initState 1))).playerBalance 3 =
        1686110208 ∧
    (exec (.mint 3 20000000000000000000000) (initState 1)).playerBalance 3 = 0 ∧
    mintTokens (initState 1) 3 20000000000000000000000 =
      .error .MaxMintExceeded ∧
    (1686110208 : Nat) ≠ 0 := ⟨rfl, rfl, rfl, by decide⟩

/-- C7 (amended): whenever `a + b ≤ MAX_MINT` (so the single combined
mint is not blocked by the cap), the decrypted balance after `mint(a)`
then `mint(b)` equals the balance after the single call `mint(a+b)`,
from any starting state. -/
theorem C7_mint_additivity (st : DiceGameState) (acct a b : Nat)
    (hab : a + b ≤ MAX_MINT) :
    (exec (.mint acct b) (exec (.mint acct a) st)).playerBalance acct =
      (exec (.mint acct (a + b)) st).playerBalance acct := by
  have ha : ¬ a > MAX_MINT := by omega
  have hb : ¬ b > MAX_MINT := by omega
  have hab2 : ¬ a + b > MAX_MINT := by omega
  simp [exec, step, mintTokens, ha, hb, hab2, fheAdd32, U32MOD]
  omega

/-- Witness for C7 (amended) at `a = 2`, `b = 39`. -/
theorem C7_mint_additivity_witness :
    (exec (.mint 3 39) (exec (.mint 3 2) (initState 1))).playerBalance 3 =
      (exec (.mint 3 (2 + 39)) (initState 1)).playerBalance 3 :=
  C7_mint_additivity (initState 1) 3 2 39 (by decide)

/-- C1: a successful `resolveGame` credits the player's encrypted
balance with exactly `select(won, stake + stake, 0)` — the ciphertext
double of the stake (`(2 * stake) mod 2^32`) when the win condition
holds and exactly 0 otherwise.  Both arms of the select are computed
unconditionally (`fheSelect32` takes both fully evaluated), and the
credited amount is `2 × stake`, not `stake * PAYOUT_MULTIPLIER /
BASIS_POINTS`: the declared 1.95x multiplier plays no role. -/
theorem C1_resolve_payout (env : BlockEnv) (st : DiceGameState)
    (sender gameId : Nat) (st' : DiceGameState)
    (h : resolveGame env st sender gameId = .ok st') :
    st'.playerBalance sender =
      fheAdd32 (st.playerBalance sender) (payoutFor env st gameId) ∧
    (wonFor env st gameId = true →
      payoutFor env st gameId = 2 * (st.games gameId).stakeAmount % U32MOD) ∧
    (wonFor env st gameId = false → payoutFor env st gameId = 0) := by
  obtain ⟨hp, hr, hst⟩ := resolveGame_ok h
  subst hst
  refine ⟨resolvedState_balance env st sender gameId, fun hw => ?_, fun hw => ?_⟩
  · simp [payoutFor, hw, fheSelect32, fheAdd32, two_mul]
  · simp [payoutFor, hw, fheSelect32]

/-- Witness for C1: resolving the concrete one-die game `gameW` (player
3, stake 100, even prediction) in `stGame`. -/
theorem C1_resolve_payout_witness :
    (resolvedState envW stGame 3 0).playerBalance 3 =
      fheAdd32 (stGame.playerBalance 3) (payoutFor envW stGame 0) ∧
    (wonFor envW stGame 0 = true →
      payoutFor envW stGame 0 = 2 * (stGame.games 0).stakeAmount % U32MOD) ∧
    (wonFor envW stGame 0 = false → payoutFor envW stGame 0 = 0) :=
  C1_resolve_payout envW stGame 3 0 (resolvedState envW stGame 3 0) rfl

/-- C3: once a game is resolved, a second `resolveGame` by the same
player fails with `GameAlreadyResolved` (the spec's `AlreadyResolved`),
and the post-transaction state of that failed call is identical to the
state the first successful resolve produced. -/
theorem C3_double_resolve (env env2 : BlockEnv) (st : DiceGameState)
    (sender gameId : Nat) (st' : DiceGameState)
    (h : resolveGame env st sender gameId = .ok st') :
    resolveGame env2 st' sender gameId = .error .GameAlreadyResolved ∧
    exec (.resolve env2 sender gameId) st' = st' := by
  obtain ⟨hp, hr, hst⟩ := resolveGame_ok h
  subst hst
  have hg : (resolvedState env st sender gameId).games gameId =
      { st.games gameId with
        diceValues := (rollsFor env gameId (st.games gameId).diceCount).map some,
        isResolved := true } := by
    simp [resolvedState]
  have herr : resolveGame env2 (resolvedState env st sender gameId) sender gameId =
      .error .GameAlreadyResolved := by
    rw [resolveGame_eq, hg]
    simp [hp]
  exact ⟨herr, by simp only [exec, step, herr]⟩

/-- Witness for C3: resolving the concrete game of `stGame` twice. -/
theorem C3_double_resolve_witness :
    resolveGame envW (resolvedState envW stGame 3 0) 3 0 =
      .error .GameAlreadyResolved ∧
    exec (.resolve envW 3 0) (resolvedState envW stGame 3 0) =
      resolvedState envW stGame 3 0 :=
  C3_double_resolve envW envW stGame 3 0 (resolvedState envW stGame 3 0) rfl

/-- C10: the submitted encrypted prediction is never constrained to
{0,1}.  `startGame` accepts any `euint8` value, and `resolveGame`
computes the win condition as `(sum even) == (prediction == 0)`, so a
state whose game stores any nonzero prediction `p` resolves to exactly
the same state (up to the stored prediction byte itself, normalised away
below) as the same state storing the canonical odd prediction 1. -/
theorem C10_prediction_unconstrained (env : BlockEnv) (st : DiceGameState)
    (sender gameId p : Nat) (hp : p ≠ 0) (hlt : p < U8MOD) :
    (resolveGame env (setPred st gameId p) sender gameId).map
        (fun s => setPred s gameId 0) =
      (resolveGame env (setPred st gameId 1) sender gameId).map
        (fun s => setPred s gameId 0) ∧
    (∀ stake, ∃ st1, startGame env st sender 1 p stake = .ok st1) := by
  have hbp : (p == 0) = false := by simpa using hp
  constructor
  · by_cases h1 : (st.games gameId).player = sender
    · by_cases h2 : (st.games gameId).isResolved
      · have e1 : resolveGame env (setPred st gameId p) sender gameId =
            .error .GameAlreadyResolved := by
          rw [resolveGame_eq,
             if_neg (by simp [setPred, h1]), if_pos (by simp [setPred, h2])]
        have e2 : resolveGame env (setPred st gameId 1) sender gameId =
            .error .GameAlreadyResolved := by
          rw [resolveGame_eq,
             if_neg (by simp [setPred, h1]), if_pos (by simp [setPred, h2])]
        rw [e1, e2]
      · have e1 : resolveGame env (setPred st gameId p) sender gameId =
            .ok (resolvedState env (setPred st gameId p) sender gameId) := by
          rw [resolveGame_eq,
             if_neg (by simp [setPred, h1]), if_neg (by simp [setPred, h2])]
        have e2 : resolveGame env (setPred st gameId 1) sender gameId =
            .ok (resolvedState env (setPred st gameId 1) sender gameId) := by
          rw [resolveGame_eq,
             if_neg (by simp [setPred, h1]), if_neg (by simp [setPred, h2])]
        rw [e1, e2]
        simp only [Except.map]
        refine congrArg Except.ok ?_
        have hbal : ∀ a,
            (setPred (resolvedState env (setPred st gameId p) sender gameId) gameId 0).playerBalance a =
            (setPred (resolvedState env (setPred st gameId 1) sender gameId) gameId 0).playerBalance a := by
          intro a
          by_cases ha : a = sender <;>
            simp [setPred, resolvedState, ha, hbp]
        have hgames : ∀ gg,
            (setPred (resolvedState env (setPred st gameId p) sender gameId) gameId 0).games gg =
            (setPred (resolvedState env (setPred st gameId 1) sender gameId) gameId 0).games gg := by
          intro gg
          by_cases hgg : gg = gameId <;>
            simp [setPred, resolvedState, hgg]
        exact DiceGameState.ext rfl rfl (funext hbal) (funext hgames) rfl rfl rfl
    · have e1 : resolveGame env (setPred st gameId p) sender gameId =
          .error .OnlyGamePlayer := by
        rw [resolveGame_eq, if_pos (by simp [setPred, h1])]
      have e2 : resolveGame env (setPred st gameId 1) sender gameId =
          .error .OnlyGamePlayer := by
        rw [resolveGame_eq, if_pos (by simp [setPred, h1])]
      rw [e1, e2]
  · intro stake
    cases hs : startGame env st sender 1 p stake with
    | ok st1 => exact ⟨st1, rfl⟩
    | error e =>
        unfold startGame at hs
        rw [if_neg (by decide)] at hs
        exact absurd hs (by simp)

/-- Witness for C10 at the nonzero prediction `p = 2` on the concrete
game of `stGame`. -/
theorem C10_prediction_unconstrained_witness :
    ((resolveGame envW (setPred stGame 0 2) 3 0).map (fun s => setPred s 0 0) =
      (resolveGame envW (setPred stGame 0 1) 3 0).map (fun s => setPred s 0 0)) ∧
    (∀ stake, ∃ st1, startGame envW stGame 3 1 2 stake = .ok st1) :=
  C10_prediction_unconstrained envW stGame 3 0 2 (by decide) (by decide)

/-- C5 counterexample: the claim lists buy, sell, owner deposit and
owner withdrawal as the only entry points that can change the treasury;
but the contract's payable `receive()` accepts a plain 5-wei transfer
from non-owner account 7 and the treasury grows from 0 to 5. -/
theorem C5_receive_cex :
    (exec (.recv 7 5) (initState 1)).ethBalance = 5 ∧
    (initState 1).ethBalance = 0 ∧
    (7 : Nat) ≠ (initState 1).owner := ⟨rfl, rfl, by decide⟩

/-- Success of `startGame` forces a valid dice count and pins down the
output state. -/
theorem startGame_ok {env : BlockEnv} {st : DiceGameState} {sender d p k : Nat}
    {st' : DiceGameState} (h : startGame env st sender d p k = .ok st') :
    (1 ≤ d ∧ d ≤ 3) ∧
    st' = { st with
      gameCounter := st.gameCounter + 1,
      games := fun g =>
        if g = st.gameCounter then
          { player := sender, diceCount := d, prediction := p % U8MOD,
            stakeAmount := k % U32MOD, diceValues := List.replicate d none,
            timestamp := env.timestamp, isResolved := false }
        else st.games g,
      playerBalance := fun a =>
        if a = sender then fheSub32 (st.playerBalance sender) (k % U32MOD)
        else st.playerBalance a,
      playerGames := fun a =>
        if a = sender then st.playerGames sender ++ [st.gameCounter]
        else st.playerGames a } := by
  by_cases hd : d < 1 ∨ d > 3
  · unfold startGame at h
    rw [if_pos hd] at h
    exact absurd h (by simp)
  · unfold startGame at h
    rw [if_neg hd] at h
    injection h with h
    exact ⟨by omega, h.symm⟩

/-- C5 (amended): the treasury (native holding) is changed only by the
six payable-or-transferring entry points — `swapETHForROLL` (buy),
`swapROLLForETH` (sell), `addTreasuryETH` (owner deposit), `withdrawETH`
(owner withdrawal), and additionally the payable `receive()` and
`fallback()`, which accept plain transfers from anyone.  Every other
entry point leaves `ethBalance` unchanged on every state. -/
theorem C5_treasury_writers (st : DiceGameState) (c : Call)
    (h : touchesTreasury c = false) :
    (exec c st).ethBalance = st.ethBalance := by
  cases c with
  | mint s a =>
      by_cases hm : a > MAX_MINT <;> simp [exec, step, mintTokens, hm]
  | buy s v => simp [touchesTreasury] at h
  | sell s r e => simp [touchesTreasury] at h
  | fund s v => simp [touchesTreasury] at h
  | start env s d p k =>
      simp only [exec, step]
      cases hs : startGame env st s d p k with
      | ok st1 => rw [(startGame_ok hs).2]
      | error e => rfl
  | resolve env s g =>
      simp only [exec, step]
      cases hr : resolveGame env st s g with
      | ok st1 =>
          obtain ⟨-, -, hst⟩ := resolveGame_ok hr
          subst hst
          rfl
      | error e => rfl
  | makePublic s q =>
      by_cases hq : s = q ∨ s = st.owner <;> simp [exec, step, makeBalancePublic, hq]
  | withdraw s => simp [touchesTreasury] at h
  | recv s v => simp [touchesTreasury] at h
  | fb s v => simp [touchesTreasury] at h

/-- Witness for C5 (amended): a mint leaves the treasury untouched. -/
theorem C5_treasury_writers_witness :
    (exec (.mint 3 5) (initState 1)).ethBalance = (initState 1).ethBalance :=
  C5_treasury_writers (initState 1) (.mint 3 5) rfl

/-- The zero-initialised game record is well formed. -/
theorem GameWF_zeroGame : GameWF zeroGame := by
  constructor
  · intro _
    exact ⟨fun v hv => absurd hv (by simp [zeroGame]), by simp [zeroGame]⟩
  · intro hr
    exact absurd hr (by simp [zeroGame])

/-- A successful resolve rewrites exactly the resolved game's record. -/
theorem resolvedState_games_self (env : BlockEnv) (st : DiceGameState)
    (sender gameId : Nat) :
    (resolvedState env st sender gameId).games gameId =
      { st.games gameId with
        diceValues := (rollsFor env gameId (st.games gameId).diceCount).map some,
        isResolved := true } := by
  simp [resolvedState]

/-- A successful resolve leaves every other game record unchanged. -/
theorem resolvedState_games_other (env : BlockEnv) (st : DiceGameState)
    (sender gameId g : Nat) (hne : g ≠ gameId) :
    (resolvedState env st sender gameId).games g = st.games g := by
  simp [resolvedState, hne]

/-- The record a successful resolve writes has a fully populated
dice-value sequence. -/
theorem diceSet_rolls (g : Game) (env : BlockEnv) (gameId : Nat) :
    diceSet { g with
      diceValues := (rollsFor env gameId g.diceCount).map some,
      isResolved := true } := by
  constructor
  · simp [rollsFor]
  · intro v hv
    simp only [List.mem_map] at hv
    obtain ⟨r, hr, hrv⟩ := hv
    obtain ⟨h1, h2⟩ := rollsFor_mem hr
    subst hrv
    simp only [diceFaceOK]
    omega

/-- A state change that keeps the game map and the counter keeps the
invariant. -/
theorem StateWF_fixed {st st' : DiceGameState}
    (hg : st'.games = st.games) (hc : st'.gameCounter = st.gameCounter)
    (h : StateWF st) : StateWF st' := by
  constructor
  · intro g
    rw [hg]
    exact h.1 g
  · intro g hge
    rw [hc] at hge
    rw [hg]
    exact h.2 g hge

/-- Every entry point other than `startGame` and `resolveGame` leaves
the game map and the game counter untouched. -/
theorem exec_games_fixed (st : DiceGameState) (c : Call)
    (h : touchesGames c = false) :
    (exec c st).games = st.games ∧ (exec c st).gameCounter = st.gameCounter := by
  cases c with
  | mint s a =>
      simp only [exec, step]
      unfold mintTokens
      by_cases hm : a > MAX_MINT
      · rw [if_pos hm]; exact ⟨rfl, rfl⟩
      · rw [if_neg hm]; exact ⟨rfl, rfl⟩
  | buy s v =>
      simp only [exec, step]
      unfold swapETHForROLL
      by_cases h0 : v = 0
      · rw [if_pos h0]; exact ⟨rfl, rfl⟩
      · rw [if_neg h0]
        simp only
        by_cases hbig : v * ROLL_TOKEN_RATE / oneEther > U32MAX
        · rw [if_pos hbig]; exact ⟨rfl, rfl⟩
        · rw [if_neg hbig]; exact ⟨rfl, rfl⟩
  | sell s r e =>
      simp only [exec, step]
      unfold swapROLLForETH
      by_cases h0 : r = 0
      · rw [if_pos h0]; exact ⟨rfl, rfl⟩
      · rw [if_neg h0]
        simp only
        by_cases hins : st.ethBalance < r * oneEther / ROLL_TOKEN_RATE
        · rw [if_pos hins]; exact ⟨rfl, rfl⟩
        · rw [if_neg hins]; exact ⟨rfl, rfl⟩
  | fund s v =>
      simp only [exec, step]
      unfold addTreasuryETH
      by_cases ho : s ≠ st.owner
      · rw [if_pos ho]; exact ⟨rfl, rfl⟩
      · rw [if_neg ho]
        by_cases h0 : v = 0
        · rw [if_pos h0]; exact ⟨rfl, rfl⟩
        · rw [if_neg h0]; exact ⟨rfl, rfl⟩
  | start env s d p k => simp [touchesGames] at h
  | resolve env s g => simp [touchesGames] at h
  | makePublic s q =>
      simp only [exec, step]
      unfold makeBalancePublic
      by_cases ha : s = q ∨ s = st.owner
      · rw [if_pos ha]; exact ⟨rfl, rfl⟩
      · rw [if_neg ha]; exact ⟨rfl, rfl⟩
  | withdraw s =>
      simp only [exec, step]
      unfold withdrawETH
      by_cases ho : s ≠ st.owner
      · rw [if_pos ho]; exact ⟨rfl, rfl⟩
      · rw [if_neg ho]; exact ⟨rfl, rfl⟩
  | recv s v => exact ⟨rfl, rfl⟩
  | fb s v => exact ⟨rfl, rfl⟩

/-- C8: the dice-value lifecycle.  (i) Right after deployment the
invariant `StateWF` holds; (ii) under it, an unresolved game's
dice-value sequence holds no written value; (iii) a successful
`resolveGame` requires the game unresolved and populates the sequence
with exactly `diceCount` encrypted faces, each in [1,6]; (iv) every
entry point (called, as the EVM guarantees, by a nonzero address)
preserves the invariant; and (v) once a game is resolved, no entry
point ever changes its record (dice values included) again. -/
theorem C8_dice_lifecycle :
    (∀ d, StateWF (initState d)) ∧
    (∀ st gid, StateWF st → (st.games gid).isResolved = false →
      diceUnset (st.games gid)) ∧
    (∀ env st sender gid st', resolveGame env st sender gid = .ok st' →
      (st.games gid).isResolved = false ∧
      (st'.games gid).isResolved = true ∧
      diceSet (st'.games gid) ∧
      (st'.games gid).diceCount = (st.games gid).diceCount) ∧
    (∀ st c, StateWF st → Call.sender c ≠ 0 → StateWF (exec c st)) ∧
    (∀ st c gid, StateWF st → Call.sender c ≠ 0 →
      (st.games gid).isResolved = true → (exec c st).games gid = st.games gid) := by
  refine ⟨?_, ?_, ?_, ?_, ?_⟩
  · intro d
    refine ⟨fun g => ?_, fun g _ => rfl⟩
    exact GameWF_zeroGame
  · intro st gid hwf hres
    exact ((hwf.1 gid).1 hres).1
  · intro env st sender gid st' h
    obtain ⟨hp, hunres, hst⟩ := resolveGame_ok h
    subst hst
    rw [resolvedState_games_self]
    exact ⟨hunres, rfl, diceSet_rolls (st.games gid) env gid, rfl⟩
  · intro st c hwf hsnz
    cases c with
    | start env s d p k =>
        simp only [exec, step]
        cases hs : startGame env st s d p k with
        | error e => exact hwf
        | ok st1 =>
            obtain ⟨hd, hst1⟩ := startGame_ok hs
            subst hst1
            constructor
            · intro g
              by_cases hg : g = st.gameCounter
              · subst hg
                simp only [if_pos rfl]
                refine ⟨fun _ => ⟨fun v hv => ?_, by simp⟩, fun hr => ?_⟩
                · exact List.eq_of_mem_replicate hv
                · simp at hr
              · simp only [if_neg hg]
                exact hwf.1 g
            · intro g hge
              have hne : g ≠ st.gameCounter := by
                simp only at hge
                omega
              simp only [if_neg hne]
              refine hwf.2 g ?_
              simp only at hge
              omega
    | resolve env s gid =>
        simp only [exec, step]
        cases hr : resolveGame env st s gid with
        | error e => exact hwf
        | ok st1 =>
            obtain ⟨hp, hunres, hst1⟩ := resolveGame_ok hr
            subst hst1
            have hsz : s ≠ 0 := hsnz
            have hlt : gid < st.gameCounter := by
              by_contra hge
              push_neg at hge
              have hz := hwf.2 gid hge
              rw [hz] at hp
              exact hsz (by simpa [zeroGame] using hp.symm)
            constructor
            · intro g
              by_cases hg : g = gid
              · subst hg
                rw [resolvedState_games_self]
                refine ⟨fun hf => ?_, fun _ => diceSet_rolls (st.games g) env g⟩
                simp at hf
              · rw [resolvedState_games_other env st s gid g hg]
                exact hwf.1 g
            · intro g hge
              have hgc : st.gameCounter ≤ g := hge
              have hne : g ≠ gid := by omega
              rw [resolvedState_games_other env st s gid g hne]
              exact hwf.2 g hgc
    | mint s a =>
        exact StateWF_fixed (exec_games_fixed st (.mint s a) rfl).1
          (exec_games_fixed st (.mint s a) rfl).2 hwf
    | buy s v =>
        exact StateWF_fixed (exec_games_fixed st (.buy s v) rfl).1
          (exec_games_fixed st (.buy s v) rfl).2 hwf
    | sell s r e =>
        exact StateWF_fixed (exec_games_fixed st (.sell s r e) rfl).1
          (exec_games_fixed st (.sell s r e) rfl).2 hwf
    | fund s v =>
        exact StateWF_fixed (exec_games_fixed st (.fund s v) rfl).1
          (exec_games_fixed st (.fund s v) rfl).2 hwf
    | makePublic s q =>
        exact StateWF_fixed (exec_games_fixed st (.makePublic s q) rfl).1
          (exec_games_fixed st (.makePublic s q) rfl).2 hwf
    | withdraw s =>
        exact StateWF_fixed (exec_games_fixed st (.withdraw s) rfl).1
          (exec_games_fixed st (.withdraw s) rfl).2 hwf
    | recv s v =>
        exact StateWF_fixed (exec_games_fixed st (.recv s v) rfl).1
          (exec_games_fixed st (.recv s v) rfl).2 hwf
    | fb s v =>
        exact StateWF_fixed (exec_games_fixed st (.fb s v) rfl).1
          (exec_games_fixed st (.fb s v) rfl).2 hwf
  · intro st c gid hwf hsnz hres
    cases c with
    | start env s d p k =>
        simp only [exec, step]
        cases hs : startGame env st s d p k with
        | error e => rfl
        | ok st1 =>
            obtain ⟨hd, hst1⟩ := startGame_ok hs
            subst hst1
            have hne : gid ≠ st.gameCounter := by
              intro he
              have hz := hwf.2 gid (by omega)
              rw [hz] at hres
              simp [zeroGame] at hres
            simp only [if_neg hne]
    | resolve env s g2 =>
        simp only [exec, step]
        cases hr : resolveGame env st s g2 with
        | error e => rfl
        | ok st1 =>
            obtain ⟨hp, hunres, hst1⟩ := resolveGame_ok hr
            subst hst1
            have hne : gid ≠ g2 := by
              intro he
              subst he
              rw [hres] at hunres
              cases hunres
            exact resolvedState_games_other env st s g2 gid hne
    | mint s a => rw [(exec_games_fixed st (.mint s a) rfl).1]
    | buy s v => rw [(exec_games_fixed st (.buy s v) rfl).1]
    | sell s r e => rw [(exec_games_fixed st (.sell s r e) rfl).1]
    | fund s v => rw [(exec_games_fixed st (.fund s v) rfl).1]
    | makePublic s q => rw [(exec_games_fixed st (.makePublic s q) rfl).1]
    | withdraw s => rw [(exec_games_fixed st (.withdraw s) rfl).1]
    | recv s v => rw [(exec_games_fixed st (.recv s v) rfl).1]
    | fb s v => rw [(exec_games_fixed st (.fb s v) rfl).1]

/-- Witness for C8 on the concrete state `stGame`: its unresolved game
has no dice values; resolving it preserves the invariant; and a
subsequent mint leaves the resolved game's record unchanged. -/
theorem C8_dice_lifecycle_witness :
    diceUnset (stGame.games 0) ∧
    StateWF (exec (.resolve envW 3 0) stGame) ∧
    (exec (.mint 3 7) (exec (.resolve envW 3 0) stGame)).games 0 =
      (exec (.resolve envW 3 0) stGame).games 0 := by
  have hwf : StateWF stGame := by
    constructor
    · intro g
      by_cases hg : g = 0
      · subst hg
        show GameWF gameW
        refine ⟨fun _ => ⟨fun v hv => ?_, by simp [gameW]⟩, fun hr => ?_⟩
        · simpa [gameW] using hv
        · simp [gameW] at hr
      · have hz : stGame.games g = zeroGame := by simp [stGame, hg]
        rw [hz]
        exact GameWF_zeroGame
    · intro g hge
      have hg : g ≠ 0 := by
        simp only [stGame] at hge
        omega
      simp [stGame, hg]
  exact ⟨C8_dice_lifecycle.2.1 stGame 0 hwf rfl,
         C8_dice_lifecycle.2.2.2.1 stGame (.resolve envW 3 0) hwf (by decide),
         C8_dice_lifecycle.2.2.2.2 (exec (.resolve envW 3 0) stGame) (.mint 3 7) 0
           (C8_dice_lifecycle.2.2.2.1 stGame (.resolve envW 3 0) hwf (by decide))
           (by decide) (by decide)⟩
